import Mathlib

/-! Shallow embedding of the payroll tracker's commission calculator and
payroll-ledger operations (src/payroll_tracker_gui.py). Currency amounts
are modelled as rationals: the program serializes amounts as two-decimal
strings and parses them back, which is value-preserving on the states the
program itself produces, so serialization is modelled as the identity on
values, while the `max 0` clamp that `Employee.__init__` applies every
time the employee table is reloaded is modelled explicitly. Files are
modelled by their row contents, with `Option` distinguishing a missing
file from an empty (header-only) one. -/

namespace Payroll

/-- Commission formula, from `Invoice.calculate_commission_static`:
credit card used gives `(total - materials - fees) / 2 + tip`; otherwise
`materials < 35` gives `(total - fees) / 2 + tip`, and `materials >= 35`
gives `(total - materials - fees) / 2 + tip + materials`. -/
def calculate_commission_static (credit_card_used : Bool)
    (total tip materials fees : ℚ) : ℚ :=
  if credit_card_used then
    (total - materials - fees) / 2 + tip
  else
    if materials < 35 then
      (total - fees) / 2 + tip
    else
      (total - materials - fees) / 2 + tip + materials

/-- An employee record as held in memory and in `employees.csv`. -/
structure Employee where
  id : Int
  name : String
  weekly_pay : ℚ
  year_to_date_pay : ℚ
  deriving DecidableEq

/-- `Employee.__init__`: both pay fields are clamped at zero on construction. -/
def Employee.init (emp_id : Int) (name : String)
    (weekly_pay year_to_date_pay : ℚ) : Employee :=
  ⟨emp_id, name, max 0 weekly_pay, max 0 year_to_date_pay⟩

/-- `save_employees` followed by `load_employees` rebuilds each employee
through `Employee.__init__`, so a round trip clamps both pay fields. -/
def Employee.reload (e : Employee) : Employee :=
  Employee.init e.id e.name e.weekly_pay e.year_to_date_pay

/-- `Employee.add_weekly_pay`: adds an amount into year-to-date pay. -/
def Employee.add_weekly_pay (e : Employee) (amount : ℚ) : Employee :=
  { e with year_to_date_pay := e.year_to_date_pay + amount }

/-- `Employee.edit_pay`: sets weekly pay, clamped at zero. -/
def Employee.edit_pay (e : Employee) (new_weekly_pay : ℚ) : Employee :=
  { e with weekly_pay := max 0 new_weekly_pay }

/-- Well-formedness of an employee record: both pay fields nonnegative.
Every employee the program loads satisfies this. -/
def Employee.WF (e : Employee) : Prop :=
  0 ≤ e.weekly_pay ∧ 0 ≤ e.year_to_date_pay

instance (e : Employee) : Decidable e.WF :=
  inferInstanceAs (Decidable (0 ≤ e.weekly_pay ∧ 0 ≤ e.year_to_date_pay))

/-- One data row of an invoice file, columns
Invoice#, Customer, Date, Status, Total, Tip, Materials, Fees, Commission. -/
structure InvoiceRow where
  number : String
  customer : String
  date : String
  status : String
  total : ℚ
  tip : ℚ
  materials : ℚ
  fees : ℚ
  commission : ℚ
  deriving DecidableEq

/-- Reading an invoice file: a missing file is treated as an empty row set. -/
def readRows : Option (List InvoiceRow) → List InvoiceRow
  | none => []
  | some rows => rows

/-- Per-employee ledger state: the employee record, the active invoice file
(`none` when missing), the archived-invoice files keyed by their archive
date string, and the payment-history rows. -/
structure EmpState where
  emp : Employee
  active : Option (List InvoiceRow)
  archives : List (String × List InvoiceRow)
  payments : List (String × ℚ)
  deriving DecidableEq

/-- `toggle_invoice_status`: when the invoice already has the requested
status the function reports informationally and returns without touching
the file; otherwise every row with the invoice number gets the new status
and the file is rewritten. -/
def toggle_invoice_status (rows : List InvoiceRow) (invoice_number : String)
    (old_status new_status : String) : List InvoiceRow :=
  if old_status = new_status then rows
  else rows.map fun r =>
    if r.number = invoice_number then { r with status := new_status } else r

/-- The inputs of the add-invoice dialog. -/
structure InvoiceInput where
  number : String
  customer : String
  date : String
  status : String
  manual_override : Bool
  manual_commission : ℚ
  cc : Bool
  total : ℚ
  tip : ℚ
  materials : ℚ
  fees : ℚ
  deriving DecidableEq

/-- `add_invoice_dialog.save_invoice`: an empty invoice number or customer
aborts with no state change; with manual override the commission is the
entered amount and the four formula inputs are stored as zero, otherwise
the commission comes from the formula; the row is appended (the file is
created when missing), the commission is added to weekly pay, and the
employee table is saved and reloaded (clamping through `Employee.__init__`). -/
def save_invoice (s : EmpState) (inp : InvoiceInput) : EmpState :=
  if inp.number = "" ∨ inp.customer = "" then s
  else
    let commission :=
      if inp.manual_override then inp.manual_commission
      else calculate_commission_static inp.cc inp.total inp.tip inp.materials inp.fees
    let row : InvoiceRow :=
      if inp.manual_override then
        ⟨inp.number, inp.customer, inp.date, inp.status, 0, 0, 0, 0, commission⟩
      else
        ⟨inp.number, inp.customer, inp.date, inp.status,
          inp.total, inp.tip, inp.materials, inp.fees, commission⟩
    { s with
      active := some (readRows s.active ++ [row]),
      emp := ({ s.emp with weekly_pay := s.emp.weekly_pay + commission }).reload }

/-- `record_payment`: appends a (date, amount) row to the payment history,
creating the file with its header when missing. -/
def record_payment (ps : List (String × ℚ)) (payment_date : String)
    (amount : ℚ) : List (String × ℚ) :=
  ps ++ [(payment_date, amount)]

/-- Archive file key: the payment date with slashes replaced by dashes,
as in `get_archived_invoice_filename`. -/
def archiveKey (payment_date : String) : String :=
  payment_date.replace "/" "-"

/-- `archive_invoices`: when the active invoice file is missing, returns
with nothing to archive; otherwise copies the active rows verbatim into the
archive keyed by the date and rewrites the active file to header only. -/
def archive_invoices (s : EmpState) (payment_date : String) : EmpState :=
  match s.active with
  | none => s
  | some rows =>
      { s with
        active := some [],
        archives := (archiveKey payment_date, rows) :: s.archives }

/-- `close_out_week.process_closeout`: refuses as an informational no-op
when weekly pay is at most zero; otherwise, once the user confirms a date
that parses in MM/DD/YYYY format (`confirmed` is set exactly on parse
success), records the payment, archives the invoices, moves weekly pay
into year-to-date pay, resets weekly pay to zero, and saves and reloads
the employee table. An unconfirmed dialog leaves the state unchanged. -/
def process_closeout (s : EmpState) (confirmed : Bool)
    (payment_date : String) : EmpState :=
  if s.emp.weekly_pay ≤ 0 then s
  else if confirmed then
    let w := s.emp.weekly_pay
    let s1 : EmpState := { s with payments := record_payment s.payments payment_date w }
    let s2 := archive_invoices s1 payment_date
    { s2 with emp := ((s2.emp.add_weekly_pay w).edit_pay 0).reload }
  else s

/-- First-match in-place update, modelling mutation of the one employee
object returned by `find_employee`. -/
def update_first (emps : List Employee) (emp_id : Int)
    (f : Employee → Employee) : List Employee :=
  match emps with
  | [] => []
  | e :: rest =>
      if e.id = emp_id then f e :: rest else e :: update_first rest emp_id f

/-- Pay effect of `edit_invoice_dialog.save_changes`: the found employee's
weekly pay is adjusted by the commission delta, then the whole employee
table is saved and reloaded, rebuilding every record through
`Employee.__init__` and hence clamping pay fields at zero. -/
def edit_invoice_pay (emps : List Employee) (emp_id : Int)
    (old_commission new_commission : ℚ) : List Employee :=
  (update_first emps emp_id fun e =>
      { e with weekly_pay := e.weekly_pay + (new_commission - old_commission) }).map
    Employee.reload

/-- A payment-history file as `get_last_payment_date` can encounter it:
missing, unreadable (any read exception), or readable with data rows
(date, amount) after the header. -/
inductive PaymentFile where
  | missing : PaymentFile
  | unreadable : PaymentFile
  | content : List (String × String) → PaymentFile

/-- `get_last_payment_date`: "Never Paid" when the file is missing, cannot
be read, or has no data rows; otherwise the date field of the last row. -/
def get_last_payment_date : PaymentFile → String
  | .missing => "Never Paid"
  | .unreadable => "Never Paid"
  | .content rows =>
      match rows.getLast? with
      | none => "Never Paid"
      | some r => r.1

/-! Helper lemmas shared by the claim theorems. -/

theorem Employee.WF_init (emp_id : Int) (name : String) (wp ytd : ℚ) :
    (Employee.init emp_id name wp ytd).WF :=
  ⟨le_max_left 0 wp, le_max_left 0 ytd⟩

theorem Employee.WF_reload (e : Employee) : e.reload.WF :=
  Employee.WF_init e.id e.name e.weekly_pay e.year_to_date_pay

theorem Employee.reload_eq_self (e : Employee) (h : e.WF) : e.reload = e := by
  obtain ⟨i, n, wp, ytd⟩ := e
  obtain ⟨h1, h2⟩ := h
  simp only [Employee.reload, Employee.init, Employee.mk.injEq, true_and]
  exact ⟨max_eq_right h1, max_eq_right h2⟩

theorem map_reload_eq_self (l : List Employee) (h : ∀ e ∈ l, e.WF) :
    l.map Employee.reload = l := by
  induction l with
  | nil => rfl
  | cons e rest ih =>
      simp only [List.map_cons]
      rw [Employee.reload_eq_self e (h e (by simp)),
        ih (fun x hx => h x (by simp [hx]))]

theorem closeout_nonpos (s : EmpState) (c : Bool) (d : String)
    (h : s.emp.weekly_pay ≤ 0) : process_closeout s c d = s := by
  simp [process_closeout, h]

theorem update_first_append (pre post : List Employee) (t : Employee)
    (emp_id : Int) (f : Employee → Employee)
    (hpre : ∀ e ∈ pre, e.id ≠ emp_id) (ht : t.id = emp_id) :
    update_first (pre ++ t :: post) emp_id f = pre ++ f t :: post := by
  induction pre with
  | nil => simp [update_first, ht]
  | cons e rest ih =>
      have he : e.id ≠ emp_id := hpre e (by simp)
      simp only [List.cons_append, update_first, if_neg he, List.append_eq]
      rw [ih (fun x hx => hpre x (by simp [hx]))]

/-! Claim theorems. -/

/-- C1: with the credit-card flag set, the commission is exactly
(total - materials - fees) / 2 + tip for every input, whatever the
materials value; the materials-threshold branches are not reached. -/
theorem commission_credit_card (total tip materials fees : ℚ) :
    calculate_commission_static true total tip materials fees
      = (total - materials - fees) / 2 + tip := by
  simp [calculate_commission_static]

/-- C2: with the credit-card flag false the threshold is a strict
less-than at 35: below it materials drop out of the formula entirely, at
or above it materials are subtracted and added back, and at exactly 35
the subtract-and-add-back branch applies. -/
theorem commission_no_card_threshold (total tip materials fees : ℚ) :
    (materials < 35 →
      calculate_commission_static false total tip materials fees
        = (total - fees) / 2 + tip)
    ∧ (35 ≤ materials →
      calculate_commission_static false total tip materials fees
        = (total - materials - fees) / 2 + tip + materials)
    ∧ calculate_commission_static false total tip 35 fees
        = (total - 35 - fees) / 2 + tip + 35 := by
  refine ⟨fun h => ?_, fun h => ?_, ?_⟩
  · simp [calculate_commission_static, if_pos h]
  · simp [calculate_commission_static, if_neg (not_lt.mpr h)]
  · simp [calculate_commission_static, if_neg (lt_irrefl (35 : ℚ))]

/-- C2 witness: the spec's own examples, materials 20 below and 50 above
the threshold, evaluated through the theorem. -/
theorem commission_no_card_threshold_witness :
    calculate_commission_static false 200 20 20 10 = (200 - 10) / 2 + 20
    ∧ calculate_commission_static false 200 20 50 10
        = (200 - 50 - 10) / 2 + 20 + 50 :=
  ⟨(commission_no_card_threshold 200 20 20 10).1 (by norm_num),
   (commission_no_card_threshold 200 20 50 10).2.1 (by norm_num)⟩

/-- C3: a save with manual commission override appends a row whose stored
commission is the directly entered amount and whose stored total, tip,
materials and fees are all zero; the formula is not applied. -/
theorem save_invoice_manual_override (s : EmpState) (inp : InvoiceInput)
    (hm : inp.manual_override = true)
    (hn : inp.number ≠ "") (hc : inp.customer ≠ "") :
    (save_invoice s inp).active
      = some (readRows s.active
          ++ [⟨inp.number, inp.customer, inp.date, inp.status, 0, 0, 0, 0,
                inp.manual_commission⟩]) := by
  simp [save_invoice, hn, hc, hm]

/-- C3 witness: a concrete manual-override save stores the entered 42 as
the commission and zeros for the four formula inputs. -/
theorem save_invoice_manual_override_witness :
    (save_invoice ⟨⟨1, "alice", 0, 0⟩, some [], [], []⟩
        ⟨"7", "cust", "01/02/2026", "Paid", true, 42, false, 5, 6, 7, 8⟩).active
      = some [⟨"7", "cust", "01/02/2026", "Paid", 0, 0, 0, 0, 42⟩] := by
  simpa using save_invoice_manual_override
    ⟨⟨1, "alice", 0, 0⟩, some [], [], []⟩
    ⟨"7", "cust", "01/02/2026", "Paid", true, 42, false, 5, 6, 7, 8⟩
    rfl (by decide) (by decide)

/-- C4: close-out with weekly pay at most zero is a guarded no-op on the
whole state (no payment appended, no archive, active set and both pay
fields unchanged), and a second close-out right after a successful one
hits that guard, so it changes nothing. -/
theorem process_closeout_guard (s : EmpState) (confirmed : Bool) (d : String) :
    (s.emp.weekly_pay ≤ 0 → process_closeout s confirmed d = s)
    ∧ (∀ d2 : String, ∀ c2 : Bool, 0 < s.emp.weekly_pay →
        process_closeout (process_closeout s true d) c2 d2
          = process_closeout s true d) := by
  constructor
  · intro h
    exact closeout_nonpos s confirmed d h
  · intro d2 c2 h
    have hz : (process_closeout s true d).emp.weekly_pay = 0 := by
      obtain ⟨⟨i, n, wp, ytd⟩, active, archives, payments⟩ := s
      have h' : (0 : ℚ) < wp := h
      have hng : ¬ wp ≤ 0 := not_le.mpr h'
      cases active <;>
        simp [process_closeout, archive_invoices, record_payment,
          Employee.add_weekly_pay, Employee.edit_pay, Employee.reload,
          Employee.init, hng]
    exact closeout_nonpos _ c2 d2 hz.le

/-- C4 witness: a zero-pay close-out leaves a concrete state untouched,
and on a positive-pay state a second close-out changes nothing. -/
theorem process_closeout_guard_witness :
    process_closeout ⟨⟨1, "alice", 0, 5⟩, some [], [], []⟩ true "01/02/2026"
      = ⟨⟨1, "alice", 0, 5⟩, some [], [], []⟩
    ∧ process_closeout
        (process_closeout ⟨⟨1, "alice", 9, 5⟩, some [], [], []⟩ true "01/02/2026")
        true "01/09/2026"
      = process_closeout ⟨⟨1, "alice", 9, 5⟩, some [], [], []⟩ true "01/02/2026" :=
  ⟨(process_closeout_guard ⟨⟨1, "alice", 0, 5⟩, some [], [], []⟩ true "01/02/2026").1
      (by norm_num),
   (process_closeout_guard ⟨⟨1, "alice", 9, 5⟩, some [], [], []⟩ true "01/02/2026").2
      "01/09/2026" true (by norm_num)⟩

/-- C5: a confirmed close-out with weekly pay W > 0 (year-to-date pay
nonnegative, as on every loaded state) appends exactly one payment row
(date, W), adds exactly W to year-to-date pay, and resets weekly pay to
zero. Confirmation stands for a payment date that parsed in MM/DD/YYYY
format, since the dialog sets it exactly on parse success. -/
theorem process_closeout_payment (s : EmpState) (d : String)
    (hw : 0 < s.emp.weekly_pay) (hy : 0 ≤ s.emp.year_to_date_pay) :
    (process_closeout s true d).payments = s.payments ++ [(d, s.emp.weekly_pay)]
    ∧ (process_closeout s true d).emp.year_to_date_pay
        = s.emp.year_to_date_pay + s.emp.weekly_pay
    ∧ (process_closeout s true d).emp.weekly_pay = 0 := by
  obtain ⟨⟨i, n, wp, ytd⟩, active, archives, payments⟩ := s
  have hw' : (0 : ℚ) < wp := hw
  have hy' : (0 : ℚ) ≤ ytd := hy
  have hng : ¬ wp ≤ 0 := not_le.mpr hw'
  have hsum : (0 : ℚ) ≤ ytd + wp := by linarith
  cases active <;>
    simp [process_closeout, archive_invoices, record_payment,
      Employee.add_weekly_pay, Employee.edit_pay, Employee.reload,
      Employee.init, hng, max_eq_right hsum]

/-- C5 witness: closing out a concrete state with weekly pay 9 appends
the payment row, adds 9 to year-to-date pay, and zeroes weekly pay. -/
theorem process_closeout_payment_witness :
    (process_closeout ⟨⟨1, "alice", 9, 5⟩, some [], [], []⟩ true "01/02/2026").payments
      = [("01/02/2026", (9 : ℚ))]
    ∧ (process_closeout ⟨⟨1, "alice", 9, 5⟩, some [], [], []⟩ true "01/02/2026").emp.year_to_date_pay
      = 5 + 9
    ∧ (process_closeout ⟨⟨1, "alice", 9, 5⟩, some [], [], []⟩ true "01/02/2026").emp.weekly_pay
      = 0 := by
  simpa using process_closeout_payment ⟨⟨1, "alice", 9, 5⟩, some [], [], []⟩
    "01/02/2026" (by norm_num) (by norm_num)

/-- C6: after a confirmed close-out of an employee whose active invoice
file exists, the active file holds only its header (no data rows) and the
archive keyed by the week-ending date holds exactly the rows that were
active immediately before the close-out. -/
theorem process_closeout_archive (s : EmpState) (d : String)
    (rows : List InvoiceRow)
    (hw : 0 < s.emp.weekly_pay) (ha : s.active = some rows) :
    (process_closeout s true d).active = some []
    ∧ (process_closeout s true d).archives.lookup (archiveKey d) = some rows := by
  obtain ⟨⟨i, n, wp, ytd⟩, active, archives, payments⟩ := s
  have hw' : (0 : ℚ) < wp := hw
  have hng : ¬ wp ≤ 0 := not_le.mpr hw'
  have ha' : active = some rows := ha
  subst ha'
  simp [process_closeout, archive_invoices, record_payment,
    Employee.add_weekly_pay, Employee.edit_pay, Employee.reload,
    Employee.init, hng, List.lookup]

/-- C6 witness: a concrete close-out empties the active set and archives
the one active row under the dated key. -/
theorem process_closeout_archive_witness :
    (process_closeout
        ⟨⟨1, "alice", 9, 5⟩,
          some [⟨"7", "cust", "01/01/2026", "Paid", 18, 0, 0, 0, 9⟩], [], []⟩
        true "01/02/2026").active = some []
    ∧ (process_closeout
        ⟨⟨1, "alice", 9, 5⟩,
          some [⟨"7", "cust", "01/01/2026", "Paid", 18, 0, 0, 0, 9⟩], [], []⟩
        true "01/02/2026").archives.lookup (archiveKey "01/02/2026")
      = some [⟨"7", "cust", "01/01/2026", "Paid", 18, 0, 0, 0, 9⟩] :=
  process_closeout_archive
    ⟨⟨1, "alice", 9, 5⟩,
      some [⟨"7", "cust", "01/01/2026", "Paid", 18, 0, 0, 0, 9⟩], [], []⟩
    "01/02/2026" [⟨"7", "cust", "01/01/2026", "Paid", 18, 0, 0, 0, 9⟩]
    (by norm_num) rfl

/-- C7 counterexample: one employee with weekly pay 10; an edit takes the
invoice's commission from 10 to -20, so the claimed delta update would
leave weekly pay at 10 + (-20 - 10) = -20, but the save/reload clamp of
`Employee.__init__` stores 0 instead, a change of -10 rather than -30. -/
theorem edit_invoice_pay_clamp_counterexample :
    (edit_invoice_pay [⟨1, "alice", 10, 0⟩] 1 10 (-20)).map Employee.weekly_pay
      ≠ [10 + ((-20 : ℚ) - 10)] := by
  have h30 : (10 : ℚ) + (-20 - 10) = -20 := by norm_num
  have hm : max (0 : ℚ) (-20) = 0 := max_eq_left (by norm_num)
  have hval : edit_invoice_pay [⟨1, "alice", 10, 0⟩] 1 10 (-20)
      = [⟨1, "alice", 0, 0⟩] := by
    simp [edit_invoice_pay, update_first, Employee.reload, Employee.init, h30, hm]
  rw [hval, h30]
  simp only [List.map_cons, List.map_nil, ne_eq, List.cons.injEq, and_true]
  norm_num

/-- C7 (amended): when the adjusted weekly pay stays nonnegative, an
invoice edit changing the commission from old to new changes the edited
employee's weekly pay by exactly new - old (a delta update applied to the
found record, not a recompute) and leaves every other well-formed
employee record — weekly and year-to-date pay included — unchanged; were
the adjusted pay negative, the save/reload would clamp it to zero. -/
theorem edit_invoice_pay_delta (pre post : List Employee) (t : Employee)
    (emp_id : Int) (old_c new_c : ℚ)
    (hpre : ∀ e ∈ pre, e.id ≠ emp_id) (ht : t.id = emp_id)
    (hwf : ∀ e ∈ pre ++ t :: post, e.WF)
    (hnn : 0 ≤ t.weekly_pay + (new_c - old_c)) :
    edit_invoice_pay (pre ++ t :: post) emp_id old_c new_c
      = pre ++ { t with weekly_pay := t.weekly_pay + (new_c - old_c) } :: post := by
  unfold edit_invoice_pay
  rw [update_first_append pre post t emp_id _ hpre ht]
  rw [List.map_append, List.map_cons]
  have hpre' : ∀ e ∈ pre, e.WF := fun e he => hwf e (by simp [he])
  have hpost' : ∀ e ∈ post, e.WF := fun e he => hwf e (by simp [he])
  have htw : t.WF := hwf t (by simp)
  rw [map_reload_eq_self pre hpre', map_reload_eq_self post hpost',
    Employee.reload_eq_self
      { t with weekly_pay := t.weekly_pay + (new_c - old_c) } ⟨hnn, htw.2⟩]

/-- C7 witness: with two employees, editing employee 1's invoice from
commission 10 to 16 raises exactly their weekly pay by 6 and leaves
employee 2 untouched. -/
theorem edit_invoice_pay_delta_witness :
    edit_invoice_pay [⟨2, "bob", 4, 7⟩, ⟨1, "alice", 10, 0⟩] 1 10 16
      = [⟨2, "bob", 4, 7⟩, ⟨1, "alice", 16, 0⟩] := by
  simpa using edit_invoice_pay_delta [⟨2, "bob", 4, 7⟩] [] ⟨1, "alice", 10, 0⟩
    1 10 16 (by decide) rfl (by decide) (by norm_num)

/-- C8: requesting an invoice's status change to the value it already has
is an informational no-op: the rows are returned unchanged and the file
is not rewritten. -/
theorem toggle_status_same_noop (rows : List InvoiceRow)
    (invoice_number old_status new_status : String)
    (h : old_status = new_status) :
    toggle_invoice_status rows invoice_number old_status new_status = rows := by
  simp [toggle_invoice_status, h]

/-- C8 witness: a Paid-to-Paid toggle of a concrete row list is the
identity. -/
theorem toggle_status_same_noop_witness :
    toggle_invoice_status [⟨"7", "cust", "01/01/2026", "Paid", 18, 0, 0, 0, 9⟩]
      "7" "Paid" "Paid"
      = [⟨"7", "cust", "01/01/2026", "Paid", 18, 0, 0, 0, 9⟩] :=
  toggle_status_same_noop [⟨"7", "cust", "01/01/2026", "Paid", 18, 0, 0, 0, 9⟩]
    "7" "Paid" "Paid" rfl

/-- C9: employee construction clamps both pay fields at zero, and every
pay-mutating operation (invoice save, invoice edit, close-out) leaves
weekly and year-to-date pay nonnegative on well-formed states, even
though the commission formula itself accepts negative inputs and can
return a negative commission. -/
theorem pay_nonneg_invariant :
    (∀ (emp_id : Int) (name : String) (wp ytd : ℚ),
      (Employee.init emp_id name wp ytd).WF)
    ∧ (∀ (s : EmpState) (inp : InvoiceInput), s.emp.WF → (save_invoice s inp).emp.WF)
    ∧ (∀ (emps : List Employee) (emp_id : Int) (oc nc : ℚ),
        ∀ e ∈ edit_invoice_pay emps emp_id oc nc, e.WF)
    ∧ (∀ (s : EmpState) (c : Bool) (d : String),
        s.emp.WF → (process_closeout s c d).emp.WF)
    ∧ (∃ total tip materials fees : ℚ,
        calculate_commission_static true total tip materials fees < 0) := by
  refine ⟨fun i n wp ytd => Employee.WF_init i n wp ytd, ?_, ?_, ?_, ?_⟩
  · intro s inp hs
    unfold save_invoice
    split
    · exact hs
    · exact Employee.WF_reload _
  · intro emps emp_id oc nc e he
    unfold edit_invoice_pay at he
    obtain ⟨x, _, rfl⟩ := List.mem_map.mp he
    exact Employee.WF_reload x
  · intro s c d hs
    unfold process_closeout
    split
    · exact hs
    · split
      · exact Employee.WF_reload _
      · exact hs
  · exact ⟨0, 0, 0, 2, by norm_num [calculate_commission_static]⟩

/-- C9 witness: construction clamps a negative input state, a concrete
save and a concrete close-out keep both pay fields nonnegative. -/
theorem pay_nonneg_invariant_witness :
    (Employee.init 1 "alice" (-5) (-7)).WF
    ∧ (save_invoice ⟨⟨1, "alice", 2, 3⟩, none, [], []⟩
        ⟨"7", "cust", "01/02/2026", "Paid", false, 0, true, 0, 0, 0, 2⟩).emp.WF
    ∧ (process_closeout ⟨⟨1, "alice", 2, 3⟩, none, [], []⟩ true "01/02/2026").emp.WF :=
  ⟨pay_nonneg_invariant.1 1 "alice" (-5) (-7),
   pay_nonneg_invariant.2.1 ⟨⟨1, "alice", 2, 3⟩, none, [], []⟩
     ⟨"7", "cust", "01/02/2026", "Paid", false, 0, true, 0, 0, 0, 2⟩ (by decide),
   pay_nonneg_invariant.2.2.2.1 ⟨⟨1, "alice", 2, 3⟩, none, [], []⟩ true
     "01/02/2026" (by decide)⟩

/-- C10: the last-payment-date query answers "Never Paid" when the
history file is missing, unreadable, or has only its header row, and
otherwise answers the date field of the last data row. -/
theorem get_last_payment_date_spec :
    get_last_payment_date .missing = "Never Paid"
    ∧ get_last_payment_date .unreadable = "Never Paid"
    ∧ get_last_payment_date (.content []) = "Never Paid"
    ∧ ∀ (rows : List (String × String)) (r : String × String),
        rows.getLast? = some r →
        get_last_payment_date (.content rows) = r.1 := by
  refine ⟨rfl, rfl, rfl, fun rows r h => ?_⟩
  simp [get_last_payment_date, h]

/-- C10 witness: a one-row history answers that row's date through the
theorem's last clause. -/
theorem get_last_payment_date_spec_witness :
    get_last_payment_date (.content [("01/02/2026", "100.00")]) = "01/02/2026" :=
  get_last_payment_date_spec.2.2.2 [("01/02/2026", "100.00")]
    ("01/02/2026", "100.00") rfl

end Payroll
